import Mathlib

/-!
Verification of the procedural-content generators of this repository:
the L-system grammar engine and its turtle interpreter
(src/algorithms/lsystem.js), the boids flocking simulator
(src/algorithms/flocking.js), and the shape-grammar building generator
(src/algorithms/buildingGrammar.js).  Each JavaScript function is
embedded shallowly as a Lean definition over exact arithmetic (ℝ for
the float computations, Nat/String for the discrete ones), and the
spec's claims are settled as theorems about those definitions.
-/

/-! ### L-system grammar engine (src/algorithms/lsystem.js) -/

/-- The `LSystem` class state: the stored start string (the JS field is
called `axiom`, a reserved word in Lean, hence `axiomStr`), the rule
record, the iteration count and the last expanded string. -/
structure LSystem where
  axiomStr : String
  rules : List (Char × String)
  iterations : Nat
  currentString : String

/-- The JS constructor `new LSystem(axiom, rules, iterations)`:
`currentString` starts out as the axiom string. -/
def mkLSystem (a : String) (rules : List (Char × String)) (iterations : Nat) : LSystem :=
  { axiomStr := a, rules := rules, iterations := iterations, currentString := a }

/-- One character of an expansion pass: `if (this.rules[char]) newString +=
this.rules[char]; else newString += char;`.  A rule mapping to the empty
string is falsy in JS, so the character is kept in that case. -/
def applyRule (rules : List (Char × String)) (c : Char) : String :=
  match rules.lookup c with
  | some r => if r = "" then String.singleton c else r
  | none => String.singleton c

/-- One pass of the `for (let char of this.currentString)` loop in
`LSystem.iterate`. -/
def expandOnce (rules : List (Char × String)) (s : String) : String :=
  s.data.foldl (fun acc c => acc ++ applyRule rules c) ""

/-- The `for (let i = 0; i < this.iterations; i++)` loop of
`LSystem.iterate`, applied to a starting string. -/
def expandIter (rules : List (Char × String)) : Nat → String → String
  | 0, s => s
  | n + 1, s => expandIter rules n (expandOnce rules s)

/-- `LSystem.iterate()`: resets `currentString` to the stored axiom
string, expands it `iterations` times, stores and returns the result. -/
def LSystem.iterate (L : LSystem) : String × LSystem :=
  let result := expandIter L.rules L.iterations L.axiomStr
  (result, { L with currentString := result })

/-- `LSystem.getString()`. -/
def LSystem.getString (L : LSystem) : String :=
  L.currentString

/-- `defaultPlantRules` from the source: `{ 'F': 'F[+F]F[-F]F' }`. -/
def defaultPlantRules : List (Char × String) :=
  [('F', "F[+F]F[-F]F")]

/-- `defaultAxiom` from the source. -/
def defaultAxiomStr : String := "F"

/-- C8: with axiom `"F"` and the single default plant rule
`F → "F[+F]F[-F]F"`, one iteration expands to exactly `"F[+F]F[-F]F"`
and zero iterations return exactly `"F"`. -/
theorem lsystem_growth_example :
    (mkLSystem defaultAxiomStr defaultPlantRules 1).iterate.1 = "F[+F]F[-F]F" ∧
    (mkLSystem defaultAxiomStr defaultPlantRules 0).iterate.1 = "F" := by
  constructor <;> rfl

/-- C3: `iterate` always restarts from the stored axiom string, so
re-expanding on the state returned by a previous `iterate` yields the
identical result string: expansion is idempotent for a fixed rule set,
axiom and iteration count. -/
theorem lsystem_expand_idempotent (L : LSystem) :
    (L.iterate.2.iterate).1 = L.iterate.1 := rfl

/-! ### 3D vectors

One record type models both the plain `{x, y, z}` point objects of the
turtle interpreter and `THREE.Vector3` in the flocking simulator.  The
JS floats are embedded as real numbers. -/

/-- A 3D vector / point. -/
@[ext]
structure Vec3 where
  x : ℝ
  y : ℝ
  z : ℝ

/-- `new THREE.Vector3()`, the zero vector. -/
def Vec3.zero : Vec3 := ⟨0, 0, 0⟩

/-- `a.add(b)`. -/
def Vec3.add (a b : Vec3) : Vec3 := ⟨a.x + b.x, a.y + b.y, a.z + b.z⟩

/-- `a.sub(b)` / `new THREE.Vector3().subVectors(a, b)`. -/
def Vec3.sub (a b : Vec3) : Vec3 := ⟨a.x - b.x, a.y - b.y, a.z - b.z⟩

/-- `v.multiplyScalar(s)`. -/
def Vec3.multiplyScalar (v : Vec3) (s : ℝ) : Vec3 := ⟨v.x * s, v.y * s, v.z * s⟩

/-- `v.divideScalar(s)`, which THREE implements as `multiplyScalar(1/s)`. -/
noncomputable def Vec3.divideScalar (v : Vec3) (s : ℝ) : Vec3 :=
  v.multiplyScalar (1 / s)

/-- `v.length()`: `sqrt(x*x + y*y + z*z)`. -/
noncomputable def Vec3.length (v : Vec3) : ℝ :=
  Real.sqrt (v.x * v.x + v.y * v.y + v.z * v.z)

/-- `v.normalize()`: THREE divides by `length() || 1`, so the zero vector
stays the zero vector. -/
noncomputable def Vec3.normalize (v : Vec3) : Vec3 :=
  v.divideScalar (if v.length = 0 then 1 else v.length)

/-- `a.distanceTo(b)`. -/
noncomputable def Vec3.distanceTo (a b : Vec3) : ℝ :=
  (a.sub b).length

/-- `v.clampLength(mn, mx)`: THREE computes
`divideScalar(length() || 1).multiplyScalar(max(mn, min(mx, length())))`. -/
noncomputable def Vec3.clampLength (v : Vec3) (mn mx : ℝ) : Vec3 :=
  (v.divideScalar (if v.length = 0 then 1 else v.length)).multiplyScalar
    (max mn (min mx v.length))

/-! ### Turtle interpreter (`parseLSystemString` in src/algorithms/lsystem.js) -/

/-- The `{x, y, z, angle}` record pushed on `[`. -/
structure TurtlePose where
  x : ℝ
  y : ℝ
  z : ℝ
  angle : ℝ

/-- A `{type: 'line', from, to}` turtle command (`from` is a reserved
word in Lean, hence `lineFrom`/`lineTo`). -/
@[ext]
structure LineCmd where
  lineFrom : Vec3
  lineTo : Vec3

/-- The mutable cursor of `parseLSystemString`: position, heading angle,
branch stack and the commands emitted so far. -/
structure TurtleState where
  x : ℝ
  y : ℝ
  z : ℝ
  currentAngle : ℝ
  stack : List TurtlePose
  commands : List LineCmd

/-- The initial cursor: origin, angle 0 (facing up), empty stack. -/
def initTurtleState : TurtleState :=
  { x := 0, y := 0, z := 0, currentAngle := 0, stack := [], commands := [] }

/-- One iteration of the `switch (char)` in `parseLSystemString`.  `F`/`G`
draw and advance, `+`/`-` turn, `&`, `^`, `\`, `/` are reserved pitch/roll
no-ops, `|` turns around, `[` pushes and `]` pops the pose (a no-op when
the stack is empty); every other character is ignored. -/
noncomputable def turtleStep (angle stepSize : ℝ) (st : TurtleState) (c : Char) : TurtleState :=
  if c = 'F' ∨ c = 'G' then
    let newX := st.x + Real.sin st.currentAngle * stepSize
    let newY := st.y + Real.cos st.currentAngle * stepSize
    let newZ := st.z
    { st with x := newX, y := newY, z := newZ,
              commands := st.commands ++ [⟨⟨st.x, st.y, st.z⟩, ⟨newX, newY, newZ⟩⟩] }
  else if c = '+' then { st with currentAngle := st.currentAngle + angle }
  else if c = '-' then { st with currentAngle := st.currentAngle - angle }
  else if c = '&' ∨ c = '^' ∨ c = '\\' ∨ c = '/' then st
  else if c = '|' then { st with currentAngle := st.currentAngle + Real.pi }
  else if c = '[' then
    { st with stack := ⟨st.x, st.y, st.z, st.currentAngle⟩ :: st.stack }
  else if c = ']' then
    match st.stack with
    | [] => st
    | p :: rest =>
      { st with x := p.x, y := p.y, z := p.z, currentAngle := p.angle, stack := rest }
  else st

/-- The full `for` loop of `parseLSystemString`, returning the final
cursor state. -/
noncomputable def runTurtle (lstring : String) (angle stepSize : ℝ) : TurtleState :=
  lstring.data.foldl (turtleStep angle stepSize) initTurtleState

/-- `parseLSystemString(lstring, angle, stepSize)`: the emitted command
list. -/
noncomputable def parseLSystemString (lstring : String) (angle stepSize : ℝ) : List LineCmd :=
  (runTurtle lstring angle stepSize).commands

/-- The characters the `switch` recognizes (drawing, turning, the
reserved pitch/roll symbols, and branching). -/
def recognizedSymbols : List Char :=
  ['F', 'G', '+', '-', '&', '^', '\\', '/', '|', '[', ']']

/-- C9: the interpreter is total by construction; a character outside the
recognized set leaves the cursor (position, heading, stack) and the
emitted command sequence unchanged — appending it to any input string
leaves the whole interpretation run unchanged — and `]` on an empty
branch stack is a no-op rather than an error. -/
theorem lsystem_interpret_unrecognized_noop (angle stepSize : ℝ) (st : TurtleState)
    (c : Char) (hc : c ∉ recognizedSymbols) (hstack : st.stack = []) :
    turtleStep angle stepSize st c = st ∧ turtleStep angle stepSize st ']' = st ∧
    ∀ s : String, runTurtle (s.push c) angle stepSize = runTurtle s angle stepSize := by
  simp only [recognizedSymbols, List.mem_cons, List.not_mem_nil, or_false, not_or] at hc
  obtain ⟨hF, hG, hp, hm, ha, hh, hb, hs, hv, hl, hr⟩ := hc
  have hstep : ∀ st2 : TurtleState, turtleStep angle stepSize st2 c = st2 := by
    intro st2
    simp [turtleStep, hF, hG, hp, hm, ha, hh, hb, hs, hv, hl, hr]
  refine ⟨hstep st, ?_, ?_⟩
  · simp [turtleStep, hstack]
  · intro s
    have hdata : (s.push c).data = s.data ++ [c] := by
      simp [String.push]
    rw [runTurtle, hdata, List.foldl_append]
    simp only [List.foldl_cons, List.foldl_nil]
    rw [hstep]
    rfl

/-- C9 witness: the concrete unrecognized character `X` is a no-op on the
initial state (and on every input string), as is `]` there. -/
theorem lsystem_interpret_unrecognized_noop_witness :
    turtleStep 1 1 initTurtleState 'X' = initTurtleState ∧
    turtleStep 1 1 initTurtleState ']' = initTurtleState ∧
    ∀ s : String, runTurtle (s.push 'X') 1 1 = runTurtle s 1 1 :=
  lsystem_interpret_unrecognized_noop 1 1 initTurtleState 'X' (by decide) rfl

/-- C6: interpreting `"F[+F]F"`, the pose (position, heading, stack)
after the `]` is exactly the pose saved at the `[` (the pose after the
first `F`), and the three emitted segments show that the segment after
`]` starts at the first segment's endpoint `(0, s, 0)` and advances by
the same displacement `(0, s, 0)` along the original heading, so the two
top-level `F` segments are colinear. -/
theorem lsystem_branch_restore (a s : ℝ) :
    ((runTurtle "F[+F]" a s).x = (runTurtle "F" a s).x ∧
     (runTurtle "F[+F]" a s).y = (runTurtle "F" a s).y ∧
     (runTurtle "F[+F]" a s).z = (runTurtle "F" a s).z ∧
     (runTurtle "F[+F]" a s).currentAngle = (runTurtle "F" a s).currentAngle ∧
     (runTurtle "F[+F]" a s).stack = (runTurtle "F" a s).stack) ∧
    parseLSystemString "F[+F]F" a s =
      [⟨⟨0, 0, 0⟩, ⟨0, s, 0⟩⟩,
       ⟨⟨0, s, 0⟩, ⟨Real.sin a * s, s + Real.cos a * s, 0⟩⟩,
       ⟨⟨0, s, 0⟩, ⟨0, s + s, 0⟩⟩] := by
  have hdata3 : "F[+F]F".data = ['F', '[', '+', 'F', ']', 'F'] := rfl
  have hdata2 : "F[+F]".data = ['F', '[', '+', 'F', ']'] := rfl
  have hdata1 : "F".data = ['F'] := rfl
  constructor
  · simp [runTurtle, hdata2, hdata1, turtleStep, initTurtleState]
  · simp [parseLSystemString, runTurtle, hdata3, turtleStep, initTurtleState]

/-! ### Flocking simulator (src/algorithms/flocking.js) -/

/-- A `Boid`: position, velocity, and the per-step scratch
acceleration. -/
structure Boid where
  position : Vec3
  velocity : Vec3
  acceleration : Vec3

/-- `Boid.update(deltaTime)`: integrate acceleration into velocity,
clamp the speed to the constant `maxSpeed = 5.0` hardcoded in the
method, integrate velocity into position, and reset the acceleration by
scaling it with 0. -/
noncomputable def Boid.update (dt : ℝ) (b : Boid) : Boid :=
  let v1 := b.velocity.add (b.acceleration.multiplyScalar dt)
  let hardMaxSpeed : ℝ := 5.0
  let v2 := if v1.length > hardMaxSpeed then v1.normalize.multiplyScalar hardMaxSpeed else v1
  { position := b.position.add (v2.multiplyScalar dt),
    velocity := v2,
    acceleration := b.acceleration.multiplyScalar 0 }

/-- `Boid.applyForce(force)`. -/
def Boid.applyForce (b : Boid) (force : Vec3) : Boid :=
  { b with acceleration := b.acceleration.add force }

/-- The `bounds` record of the flocking configuration. -/
structure FlockBounds where
  width : ℝ
  height : ℝ
  depth : ℝ

/-- The `FlockingSystem` configuration after the constructor's `??`
defaulting. -/
structure FlockConfig where
  separation : ℝ
  alignment : ℝ
  cohesion : ℝ
  separationRadius : ℝ
  neighborRadius : ℝ
  maxSpeed : ℝ
  maxForce : ℝ
  bounds : FlockBounds
  center : Vec3
  planeHeight : ℝ

/-- The constructor's defaults (`config.separation ?? 1.5`, …) applied
to an empty configuration object. -/
noncomputable def defaultFlockConfig : FlockConfig :=
  { separation := 1.5, alignment := 1.0, cohesion := 1.0,
    separationRadius := 2.0, neighborRadius := 5.0,
    maxSpeed := 5.0, maxForce := 0.1,
    bounds := ⟨50, 50, 50⟩, center := ⟨0, 50, 0⟩, planeHeight := 50 }

/-- A `FlockingSystem`: its configuration and the mutable boid array. -/
structure FlockingSystem where
  config : FlockConfig
  boids : List Boid

/-- `FlockingSystem.separate(boid)`: accumulate, over every array entry
within `separationRadius` at positive distance, the normalized
away-vector weighted inversely by distance, then average, renormalize to
`maxSpeed`, subtract the velocity and clamp to `maxForce`.  The `other
=== boid` reference-identity `continue` of the source is subsumed by the
`distance > 0` guard, since the boid itself sits at distance 0. -/
noncomputable def FlockingSystem.separate (sys : FlockingSystem) (boid : Boid) : Vec3 :=
  let p := sys.boids.foldl
    (fun (p : Vec3 × Nat) other =>
      let distance := boid.position.distanceTo other.position
      if 0 < distance ∧ distance < sys.config.separationRadius then
        (p.1.add (((boid.position.sub other.position).normalize).divideScalar distance),
         p.2 + 1)
      else p)
    (Vec3.zero, 0)
  if 0 < p.2 then
    ((((p.1.divideScalar (p.2 : ℝ)).normalize).multiplyScalar sys.config.maxSpeed).sub
        boid.velocity).clampLength 0 sys.config.maxForce
  else p.1

/-- `FlockingSystem.align(boid)`: average the velocities of the entries
within `neighborRadius` at positive distance, renormalize to `maxSpeed`,
subtract the velocity, clamp to `maxForce`; the zero vector when no
neighbor qualifies. -/
noncomputable def FlockingSystem.align (sys : FlockingSystem) (boid : Boid) : Vec3 :=
  let p := sys.boids.foldl
    (fun (p : Vec3 × Nat) other =>
      let distance := boid.position.distanceTo other.position
      if 0 < distance ∧ distance < sys.config.neighborRadius then
        (p.1.add other.velocity, p.2 + 1)
      else p)
    (Vec3.zero, 0)
  if 0 < p.2 then
    ((((p.1.divideScalar (p.2 : ℝ)).normalize).multiplyScalar sys.config.maxSpeed).sub
        boid.velocity).clampLength 0 sys.config.maxForce
  else Vec3.zero

/-- `FlockingSystem.cohesion(boid)`: average the positions of the
entries within `neighborRadius` at positive distance, steer toward that
average renormalized to `maxSpeed`, subtract the velocity, clamp to
`maxForce`; the zero vector when no neighbor qualifies. -/
noncomputable def FlockingSystem.cohesion (sys : FlockingSystem) (boid : Boid) : Vec3 :=
  let p := sys.boids.foldl
    (fun (p : Vec3 × Nat) other =>
      let distance := boid.position.distanceTo other.position
      if 0 < distance ∧ distance < sys.config.neighborRadius then
        (p.1.add other.position, p.2 + 1)
      else p)
    (Vec3.zero, 0)
  if 0 < p.2 then
    ((((((p.1.divideScalar (p.2 : ℝ)).sub boid.position).normalize).multiplyScalar
          sys.config.maxSpeed).sub boid.velocity).clampLength 0 sys.config.maxForce)
  else Vec3.zero

/-- `FlockingSystem.boundaries(boid)`: per-axis soft push-back within a
margin of 5 units of the horizontal extents and of the `planeHeight`
band; the assembled direction, when nonzero, is normalized, scaled to
`maxSpeed`, turned into a velocity delta and clamped to `maxForce`. -/
noncomputable def FlockingSystem.boundaries (sys : FlockingSystem) (boid : Boid) : Vec3 :=
  let margin : ℝ := 5.0
  let cfg := sys.config
  let sx : ℝ :=
    if boid.position.x < cfg.center.x - cfg.bounds.width / 2 + margin then 1
    else if boid.position.x > cfg.center.x + cfg.bounds.width / 2 - margin then -1
    else 0
  let sz : ℝ :=
    if boid.position.z < cfg.center.z - cfg.bounds.depth / 2 + margin then 1
    else if boid.position.z > cfg.center.z + cfg.bounds.depth / 2 - margin then -1
    else 0
  let sy : ℝ :=
    if boid.position.y < cfg.planeHeight - margin then 1
    else if boid.position.y > cfg.planeHeight + margin then -1
    else 0
  let steer : Vec3 := ⟨sx, sy, sz⟩
  if steer.length > 0 then
    ((steer.normalize.multiplyScalar cfg.maxSpeed).sub boid.velocity).clampLength
      0 cfg.maxForce
  else steer

/-- The body of the `for (const boid of this.boids)` loop in
`FlockingSystem.update`: the four weighted steering forces are added to
the boid's acceleration, then `boid.update(deltaTime)` runs. -/
noncomputable def stepBoid (sys : FlockingSystem) (dt : ℝ) (b : Boid) : Boid :=
  let sep := (sys.separate b).multiplyScalar sys.config.separation
  let ali := (sys.align b).multiplyScalar sys.config.alignment
  let coh := (sys.cohesion b).multiplyScalar sys.config.cohesion
  let bnd := (sys.boundaries b).multiplyScalar 1.0
  Boid.update dt ((((b.applyForce sep).applyForce ali).applyForce coh).applyForce bnd)

/-- The sequential in-place iteration of `FlockingSystem.update`: the
boid at index `i` is stepped against the array in which the boids before
`i` are already updated. -/
noncomputable def updateBoidsAux (cfg : FlockConfig) (dt : ℝ) :
    List Boid → List Boid → List Boid
  | done, [] => done
  | done, b :: rest =>
    updateBoidsAux cfg dt (done ++ [stepBoid ⟨cfg, done ++ b :: rest⟩ dt b]) rest

/-- `FlockingSystem.update(deltaTime)`. -/
noncomputable def FlockingSystem.update (sys : FlockingSystem) (dt : ℝ) : FlockingSystem :=
  { sys with boids := updateBoidsAux sys.config dt [] sys.boids }

/-- The boid position region in which every boundary `if` of
`FlockingSystem.boundaries` falls through: at least `margin = 5` inside
the horizontal extents and the `planeHeight` band. -/
def insideMargins (cfg : FlockConfig) (p : Vec3) : Prop :=
  ¬(p.x < cfg.center.x - cfg.bounds.width / 2 + 5.0) ∧
  ¬(p.x > cfg.center.x + cfg.bounds.width / 2 - 5.0) ∧
  ¬(p.z < cfg.center.z - cfg.bounds.depth / 2 + 5.0) ∧
  ¬(p.z > cfg.center.z + cfg.bounds.depth / 2 - 5.0) ∧
  ¬(p.y < cfg.planeHeight - 5.0) ∧
  ¬(p.y > cfg.planeHeight + 5.0)

lemma Vec3.distanceTo_self (v : Vec3) : v.distanceTo v = 0 := by
  simp [Vec3.distanceTo, Vec3.sub, Vec3.length]

lemma Vec3.zero_multiplyScalar (s : ℝ) : Vec3.zero.multiplyScalar s = Vec3.zero := by
  simp [Vec3.zero, Vec3.multiplyScalar]

lemma Vec3.add_zero_vec (v : Vec3) : v.add Vec3.zero = v := by
  simp [Vec3.zero, Vec3.add]

lemma FlockingSystem.separate_single (cfg : FlockConfig) (b : Boid) :
    FlockingSystem.separate ⟨cfg, [b]⟩ b = Vec3.zero := by
  simp [FlockingSystem.separate, Vec3.distanceTo_self]

lemma FlockingSystem.align_single (cfg : FlockConfig) (b : Boid) :
    FlockingSystem.align ⟨cfg, [b]⟩ b = Vec3.zero := by
  simp [FlockingSystem.align, Vec3.distanceTo_self]

lemma FlockingSystem.cohesion_single (cfg : FlockConfig) (b : Boid) :
    FlockingSystem.cohesion ⟨cfg, [b]⟩ b = Vec3.zero := by
  simp [FlockingSystem.cohesion, Vec3.distanceTo_self]

lemma FlockingSystem.boundaries_inside (sys : FlockingSystem) (b : Boid)
    (h : insideMargins sys.config b.position) :
    sys.boundaries b = Vec3.zero := by
  obtain ⟨h1, h2, h3, h4, h5, h6⟩ := h
  simp only [FlockingSystem.boundaries, if_neg h1, if_neg h2, if_neg h3, if_neg h4,
    if_neg h5, if_neg h6]
  simp [Vec3.length, Vec3.zero]

/-- For a single-boid system, the boid's step reduces to integrating the
boundary force alone. -/
lemma stepBoid_single (cfg : FlockConfig) (b : Boid) (dt : ℝ)
    (hacc : b.acceleration = Vec3.zero) :
    stepBoid ⟨cfg, [b]⟩ dt b =
      Boid.update dt
        { b with acceleration :=
            (FlockingSystem.boundaries ⟨cfg, [b]⟩ b).multiplyScalar 1.0 } := by
  simp only [stepBoid, FlockingSystem.separate_single, FlockingSystem.align_single,
    FlockingSystem.cohesion_single, Vec3.zero_multiplyScalar, Boid.applyForce, hacc]
  congr 1
  simp [Vec3.zero, Vec3.add]

/-- C7: with a single agent in the set, the separation, alignment and
cohesion contributions are the zero vector, the step integrates only the
boundary force, and that force is itself zero whenever the agent is at
least the 5-unit margin inside the horizontal bounds and the
plane-height band. -/
theorem flocking_single_agent_quiescence (cfg : FlockConfig) (b : Boid) (dt : ℝ)
    (hacc : b.acceleration = Vec3.zero) :
    FlockingSystem.separate ⟨cfg, [b]⟩ b = Vec3.zero ∧
    FlockingSystem.align ⟨cfg, [b]⟩ b = Vec3.zero ∧
    FlockingSystem.cohesion ⟨cfg, [b]⟩ b = Vec3.zero ∧
    (FlockingSystem.update ⟨cfg, [b]⟩ dt).boids =
      [Boid.update dt
        { b with acceleration :=
            (FlockingSystem.boundaries ⟨cfg, [b]⟩ b).multiplyScalar 1.0 }] ∧
    (insideMargins cfg b.position → FlockingSystem.boundaries ⟨cfg, [b]⟩ b = Vec3.zero) :=
  ⟨FlockingSystem.separate_single cfg b,
   FlockingSystem.align_single cfg b,
   FlockingSystem.cohesion_single cfg b,
   by simp only [FlockingSystem.update, updateBoidsAux, List.nil_append,
        stepBoid_single cfg b dt hacc],
   fun h => FlockingSystem.boundaries_inside ⟨cfg, [b]⟩ b h⟩

/-- C7 witness: the default configuration with one boid resting at the
bound-volume center. -/
noncomputable def witnessBoid : Boid :=
  { position := ⟨0, 50, 0⟩, velocity := ⟨1, 0, 0⟩, acceleration := Vec3.zero }

/-- C7 witness: the quiescence theorem applied at the default
configuration and the concrete single boid. -/
theorem flocking_single_agent_quiescence_witness :
    FlockingSystem.separate ⟨defaultFlockConfig, [witnessBoid]⟩ witnessBoid = Vec3.zero ∧
    FlockingSystem.align ⟨defaultFlockConfig, [witnessBoid]⟩ witnessBoid = Vec3.zero ∧
    FlockingSystem.cohesion ⟨defaultFlockConfig, [witnessBoid]⟩ witnessBoid = Vec3.zero ∧
    (FlockingSystem.update ⟨defaultFlockConfig, [witnessBoid]⟩ 1).boids =
      [Boid.update 1
        { witnessBoid with acceleration :=
            (FlockingSystem.boundaries ⟨defaultFlockConfig, [witnessBoid]⟩
                witnessBoid).multiplyScalar 1.0 }] ∧
    (insideMargins defaultFlockConfig witnessBoid.position →
      FlockingSystem.boundaries ⟨defaultFlockConfig, [witnessBoid]⟩ witnessBoid = Vec3.zero) :=
  flocking_single_agent_quiescence defaultFlockConfig witnessBoid 1 rfl

/-- `Boid.update` when the integrated velocity does not exceed the
hardcoded 5.0 cap: the clamp branch is not taken. -/
lemma Boid.update_no_clamp (dt : ℝ) (b : Boid)
    (h : ¬(b.velocity.add (b.acceleration.multiplyScalar dt)).length > 5.0) :
    Boid.update dt b =
      { position := b.position.add
          ((b.velocity.add (b.acceleration.multiplyScalar dt)).multiplyScalar dt),
        velocity := b.velocity.add (b.acceleration.multiplyScalar dt),
        acceleration := b.acceleration.multiplyScalar 0 } := by
  simp only [Boid.update, if_neg h]

lemma sqrt_nine : Real.sqrt 9 = 3 := by
  rw [show (9 : ℝ) = 3 ^ 2 by norm_num]
  exact Real.sqrt_sq (by norm_num)

/-- The default configuration with `maxSpeed` lowered to 1. -/
noncomputable def maxSpeedOneConfig : FlockConfig :=
  { defaultFlockConfig with maxSpeed := 1 }

/-- A boid resting at the bound-volume center with speed 3. -/
noncomputable def fastBoid : Boid :=
  { position := ⟨0, 50, 0⟩, velocity := ⟨3, 0, 0⟩, acceleration := Vec3.zero }

/-- C1: the claimed invariant `|velocity| ≤ config.maxSpeed` fails on the
code: `Boid.update` clamps the speed to its own hardcoded constant 5.0
and ignores the configured `maxSpeed`.  With `maxSpeed = 1` and a single
steering-free boid of speed 3, one `update(1)` call leaves the speed at
3, strictly above the configured bound. -/
theorem flocking_speed_bound_code_bug :
    ∃ b' : Boid,
      (FlockingSystem.update ⟨maxSpeedOneConfig, [fastBoid]⟩ 1).boids = [b'] ∧
      b'.velocity.length = 3 ∧
      maxSpeedOneConfig.maxSpeed < b'.velocity.length := by
  have hin : insideMargins maxSpeedOneConfig fastBoid.position := by
    norm_num [insideMargins, maxSpeedOneConfig, defaultFlockConfig, fastBoid]
  have hb := stepBoid_single maxSpeedOneConfig fastBoid 1 rfl
  rw [FlockingSystem.boundaries_inside _ _ hin, Vec3.zero_multiplyScalar] at hb
  have hsame : ({ fastBoid with acceleration := Vec3.zero } : Boid) = fastBoid := rfl
  rw [hsame] at hb
  have hupd : Boid.update 1 fastBoid = ⟨⟨3, 50, 0⟩, ⟨3, 0, 0⟩, ⟨0, 0, 0⟩⟩ := by
    rw [Boid.update_no_clamp]
    · simp only [fastBoid, Vec3.zero, Vec3.add, Vec3.multiplyScalar]
      norm_num
    · simp only [fastBoid, Vec3.zero, Vec3.add, Vec3.multiplyScalar, Vec3.length]
      norm_num [sqrt_nine]
  refine ⟨⟨⟨3, 50, 0⟩, ⟨3, 0, 0⟩, ⟨0, 0, 0⟩⟩, ?_, ?_, ?_⟩
  · simp only [FlockingSystem.update, updateBoidsAux, List.nil_append, hb, hupd]
  · norm_num [Vec3.length, sqrt_nine]
  · norm_num [Vec3.length, sqrt_nine, maxSpeedOneConfig, defaultFlockConfig]

/-! ### Building shape generator (src/algorithms/buildingGrammar.js) -/

/-- The decimal rendering a JS template literal applies to a number
inside `` `level-${levelIndex}-room-${index}` ``, modelled through
Mathlib's base-10 digit list. -/
def natStr (n : Nat) : String :=
  if n = 0 then "0" else ⟨((Nat.digits 10 n).map Nat.digitChar).reverse⟩

lemma digitChar_inj_lt : ∀ a < 10, ∀ b < 10, Nat.digitChar a = Nat.digitChar b → a = b := by
  decide

lemma map_digitChar_inj : ∀ l1 l2 : List Nat, (∀ d ∈ l1, d < 10) → (∀ d ∈ l2, d < 10) →
    l1.map Nat.digitChar = l2.map Nat.digitChar → l1 = l2
  | [], [], _, _, _ => rfl
  | a :: t1, b :: t2, h1, h2, h => by
    simp only [List.map_cons, List.cons.injEq] at h
    have ha := h1 a (List.mem_cons_self a t1)
    have hb := h2 b (List.mem_cons_self b t2)
    have hab : a = b := digitChar_inj_lt a ha b hb h.1
    rw [hab, map_digitChar_inj t1 t2 (fun d hd => h1 d (List.mem_cons_of_mem _ hd))
      (fun d hd => h2 d (List.mem_cons_of_mem _ hd)) h.2]

lemma natStr_ne_zero_str (b : Nat) (hb : b ≠ 0) : natStr b ≠ "0" := by
  intro h
  simp only [natStr, if_neg hb] at h
  have hdata : ((Nat.digits 10 b).map Nat.digitChar).reverse = ("0" : String).data :=
    congrArg String.data h
  have h0 : ("0" : String).data = ['0'] := rfl
  rw [h0] at hdata
  have hmap : (Nat.digits 10 b).map Nat.digitChar = ['0'] := by
    have := congrArg List.reverse hdata
    simpa using this
  have hd : Nat.digits 10 b = [0] := by
    rcases hdig : Nat.digits 10 b with _ | ⟨d, t⟩
    · rw [hdig] at hmap; simp at hmap
    · rw [hdig] at hmap
      rcases t with _ | ⟨d2, t2⟩
      · simp only [List.map_cons, List.map_nil, List.cons.injEq, and_true] at hmap
        have hdlt : d < 10 :=
          Nat.digits_lt_base (by norm_num) (by rw [hdig]; exact List.mem_cons_self _ _)
        have hd0 : d = 0 := digitChar_inj_lt d hdlt 0 (by norm_num) (by rw [hmap]; rfl)
        rw [hd0]
      · simp at hmap
  have : b = Nat.ofDigits 10 (Nat.digits 10 b) := (Nat.ofDigits_digits 10 b).symm
  rw [hd] at this
  simp [Nat.ofDigits] at this
  exact hb this

lemma natStr_injective : Function.Injective natStr := by
  intro a b h
  by_cases ha : a = 0 <;> by_cases hb : b = 0
  · rw [ha, hb]
  · exact absurd h.symm (by rw [ha]; exact natStr_ne_zero_str b hb)
  · exact absurd h (by rw [hb]; exact natStr_ne_zero_str a ha)
  · simp only [natStr, if_neg ha, if_neg hb] at h
    have hdata := congrArg String.data h
    simp only at hdata
    have hmap : (Nat.digits 10 a).map Nat.digitChar = (Nat.digits 10 b).map Nat.digitChar := by
      have := congrArg List.reverse hdata
      simpa using this
    have := map_digitChar_inj _ _
      (fun d hd => Nat.digits_lt_base (by norm_num) hd)
      (fun d hd => Nat.digits_lt_base (by norm_num) hd) hmap
    exact Nat.digits_inj_iff.mp this

/-- The room id template `` `level-${levelIndex}-room-${index}` ``. -/
def roomId (levelIndex index : Nat) : String :=
  "level-" ++ natStr levelIndex ++ "-room-" ++ natStr index

lemma roomId_inj_index {l i j : Nat} (h : roomId l i = roomId l j) : i = j := by
  have hd := congrArg String.data h
  simp only [roomId, String.data_append] at hd
  have hij : (natStr i).data = (natStr j).data :=
    List.append_inj_right hd rfl
  exact natStr_injective (String.ext hij)

/-- A JavaScript value, as far as the `hasStairs` configuration key is
concerned: absent (`undefined`), `null`, a boolean or a number. -/
inductive JSVal where
  | undef : JSVal
  | null : JSVal
  | bool : Bool → JSVal
  | num : ℚ → JSVal
deriving DecidableEq

/-- The building configuration object handed to the constructor.  The
numeric keys use the JS `||` defaulting, under which 0 (and an absent
key) falls back to the default, so value 0 doubles as "absent"; the
layout string defaults likewise on `""`. -/
structure BuildingConfig where
  levels : Nat
  roomsPerLevel : Nat
  roomSize : ℝ
  levelHeight : ℝ
  wallThickness : ℝ
  hasStairs : JSVal
  roomLayout : String

/-- The `BuildingGrammar` instance fields after the constructor ran. -/
structure BuildingGrammar where
  levels : Nat
  roomsPerLevel : Nat
  roomSize : ℝ
  levelHeight : ℝ
  wallThickness : ℝ
  hasStairs : Bool
  roomLayout : String

/-- The constructor: `config.levels || 3`, `config.roomsPerLevel || 4`,
`config.roomSize || 4.0`, `config.levelHeight || 3.0`,
`config.wallThickness || 0.2`, `config.hasStairs !== false`,
`config.roomLayout || "grid"`. -/
noncomputable def mkBuildingGrammar (c : BuildingConfig) : BuildingGrammar :=
  { levels := if c.levels = 0 then 3 else c.levels,
    roomsPerLevel := if c.roomsPerLevel = 0 then 4 else c.roomsPerLevel,
    roomSize := if c.roomSize = 0 then 4.0 else c.roomSize,
    levelHeight := if c.levelHeight = 0 then 3.0 else c.levelHeight,
    wallThickness := if c.wallThickness = 0 then 0.2 else c.wallThickness,
    hasStairs := decide (c.hasStairs ≠ JSVal.bool false),
    roomLayout := if c.roomLayout = "" then "grid" else c.roomLayout }

/-- An `{x, z}` room-center position. -/
structure RoomPos where
  x : ℝ
  z : ℝ

/-- `Math.ceil(Math.sqrt(n))` on a natural count. -/
def ceilSqrt (n : Nat) : Nat :=
  if n = 0 then 0 else Nat.sqrt (n - 1) + 1

/-- `BuildingGrammar.generateRoomPositions(levelIndex)`: the `grid`,
`linear` and `radial` layouts, and the default 3-column wrap grid for
any other layout name.  `levelIndex` is accepted and ignored exactly as
in the source. -/
noncomputable def generateRoomPositions (g : BuildingGrammar) (levelIndex : Nat) :
    List RoomPos :=
  let spacing := g.roomSize * 1.1
  if g.roomLayout = "grid" then
    let cols := ceilSqrt g.roomsPerLevel
    let rows := (g.roomsPerLevel + cols - 1) / cols
    (List.range g.roomsPerLevel).map fun i =>
      { x := (((i % cols : Nat) : ℝ) - ((cols : ℝ) - 1) / 2) * spacing,
        z := (((i / cols : Nat) : ℝ) - ((rows : ℝ) - 1) / 2) * spacing }
  else if g.roomLayout = "linear" then
    (List.range g.roomsPerLevel).map fun (i : Nat) =>
      { x := ((i : ℝ) - ((g.roomsPerLevel : ℝ) - 1) / 2) * spacing, z := 0 }
  else if g.roomLayout = "radial" then
    let angleStep := Real.pi * 2 / (g.roomsPerLevel : ℝ)
    let radius := spacing * 1.5
    (List.range g.roomsPerLevel).map fun (i : Nat) =>
      { x := Real.cos ((i : ℝ) * angleStep) * radius,
        z := Real.sin ((i : ℝ) * angleStep) * radius }
  else
    (List.range g.roomsPerLevel).map fun i =>
      { x := (((i % 3 : Nat) : ℝ) - 1) * spacing,
        z := (((i / 3 : Nat) : ℝ) - 1) * spacing }

/-- A `{to, direction}` connection entry (`to` is a reserved token in
Lean, hence `toId`). -/
structure RoomConnection where
  toId : String
  direction : String

/-- A room record. -/
structure Room where
  id : String
  x : ℝ
  y : ℝ
  z : ℝ
  width : ℝ
  depth : ℝ
  height : ℝ
  level : Nat
  connections : List RoomConnection

/-- `BuildingGrammar.getDirection(from, to)`. -/
noncomputable def getDirection (a b : RoomPos) : String :=
  let dx := b.x - a.x
  let dz := b.z - a.z
  if |dx| > |dz| then (if dx > 0 then "east" else "west")
  else (if dz > 0 then "south" else "north")

/-- One iteration of the inner `positions.forEach((otherPos,
otherIndex) => …)` of `generateLevel`: skip the room itself, connect
when the planar distance is below `roomSize * 1.2`, and skip a target
already connected. -/
noncomputable def connStep (g : BuildingGrammar) (levelIndex index : Nat) (pos : RoomPos)
    (acc : List RoomConnection) (other : Nat × RoomPos) : List RoomConnection :=
  if other.1 = index then acc
  else
    let distance := Real.sqrt ((pos.x - other.2.x) ^ 2 + (pos.z - other.2.z) ^ 2)
    if distance < g.roomSize * 1.2 then
      if acc.any (fun c => c.toId = roomId levelIndex other.1) then acc
      else acc ++ [{ toId := roomId levelIndex other.1,
                     direction := getDirection pos other.2 }]
    else acc

/-- The full inner `forEach`, building one room's connection list. -/
noncomputable def roomConnections (g : BuildingGrammar) (levelIndex : Nat)
    (positions : List RoomPos) (index : Nat) (pos : RoomPos) : List RoomConnection :=
  positions.enum.foldl (connStep g levelIndex index pos) []

/-- A generated level: index, elevation, rooms. -/
structure LevelData where
  level : Nat
  y : ℝ
  rooms : List Room

/-- `BuildingGrammar.generateLevel(levelIndex)`. -/
noncomputable def generateLevel (g : BuildingGrammar) (levelIndex : Nat) : LevelData :=
  let y := (levelIndex : ℝ) * g.levelHeight
  let positions := generateRoomPositions g levelIndex
  let rooms := positions.enum.map fun ip =>
    { id := roomId levelIndex ip.1,
      x := ip.2.x, y := y, z := ip.2.z,
      width := g.roomSize, depth := g.roomSize, height := g.levelHeight,
      level := levelIndex,
      connections := roomConnections g levelIndex positions ip.1 ip.2 : Room }
  { level := levelIndex, y := y, rooms := rooms }

/-- A stair record. -/
structure Stair where
  x : ℝ
  y : ℝ
  z : ℝ
  width : ℝ
  depth : ℝ
  height : ℝ
  level : Nat

/-- `BuildingGrammar.generateStairs(levelIndex, levelData)` reads
`levelData.rooms[0]` unconditionally; `none` models the TypeError the JS
raises when the room list is empty. -/
noncomputable def generateStairs (g : BuildingGrammar) (levelIndex : Nat)
    (levelData : LevelData) : Option Stair :=
  match levelData.rooms.head? with
  | none => none
  | some firstRoom =>
    some { x := firstRoom.x, y := levelData.y, z := firstRoom.z,
           width := 1.0, depth := 1.0, height := g.levelHeight, level := levelIndex }

/-- The generated building model. -/
structure Building where
  levels : List LevelData
  stairs : List Stair

/-- The `for (let level = 0; …)` loop of `BuildingGrammar.generate`,
parametrized by the remaining iteration count; a stair failure (empty
room list) aborts the whole generation, as the JS exception would. -/
noncomputable def generateLoop (g : BuildingGrammar) :
    Nat → Nat → Option (List LevelData × List Stair)
  | 0, _ => some ([], [])
  | n + 1, level =>
    let levelData := generateLevel g level
    let stairPart : Option (List Stair) :=
      if g.hasStairs = true ∧ level < g.levels - 1 then
        match generateStairs g level levelData with
        | none => none
        | some st => some [st]
      else some []
    match stairPart, generateLoop g n (level + 1) with
    | some sts, some (lds, stairs) => some (levelData :: lds, sts ++ stairs)
    | _, _ => none

/-- `BuildingGrammar.generate()`. -/
noncomputable def BuildingGrammar.generate (g : BuildingGrammar) : Option Building :=
  (generateLoop g g.levels 0).map fun p => { levels := p.1, stairs := p.2 }

lemma generateRoomPositions_length (g : BuildingGrammar) (li : Nat) :
    (generateRoomPositions g li).length = g.roomsPerLevel := by
  unfold generateRoomPositions
  split_ifs <;> simp only [List.length_map, List.length_range]

lemma generateLevel_rooms_length (g : BuildingGrammar) (li : Nat) :
    (generateLevel g li).rooms.length = g.roomsPerLevel := by
  simp [generateLevel, generateRoomPositions_length]

lemma generateLevel_level (g : BuildingGrammar) (li : Nat) :
    (generateLevel g li).level = li := rfl

lemma mkBuildingGrammar_roomsPerLevel_pos (c : BuildingConfig) :
    0 < (mkBuildingGrammar c).roomsPerLevel := by
  simp only [mkBuildingGrammar]
  split_ifs with h
  · norm_num
  · omega

lemma generateStairs_of_pos (g : BuildingGrammar) (li : Nat) (h : 0 < g.roomsPerLevel) :
    ∃ st r0, (generateLevel g li).rooms.head? = some r0 ∧
      generateStairs g li (generateLevel g li) = some st ∧
      st.level = li ∧ st.y = (generateLevel g li).y ∧
      st.x = r0.x ∧ st.z = r0.z ∧ st.width = 1.0 ∧ st.depth = 1.0 ∧
      st.height = g.levelHeight := by
  have hlen : 0 < (generateLevel g li).rooms.length := by
    rw [generateLevel_rooms_length]; exact h
  obtain ⟨r0, t, ht⟩ := List.exists_cons_of_ne_nil (List.length_pos.mp hlen)
  refine ⟨{ x := r0.x, y := (generateLevel g li).y, z := r0.z, width := 1.0,
            depth := 1.0, height := g.levelHeight, level := li }, r0, ?_, ?_,
          rfl, rfl, rfl, rfl, rfl, rfl, rfl⟩
  · rw [ht]; rfl
  · simp [generateStairs, ht]

/-- What one run of the `generate` loop produces from a given starting
level: all the levels in order, and a stair for exactly the non-top
levels when stairs are enabled, each agreeing with `generateStairs` at
its level. -/
lemma generateLoop_spec (g : BuildingGrammar) (h : 0 < g.roomsPerLevel) :
    ∀ n start, ∃ lds sts,
      generateLoop g n start = some (lds, sts) ∧
      lds = (List.range' start n).map (generateLevel g) ∧
      sts.map Stair.level =
        (List.range' start n).filter (fun l => g.hasStairs && decide (l < g.levels - 1)) ∧
      ∀ st ∈ sts, generateStairs g st.level (generateLevel g st.level) = some st := by
  intro n
  induction n with
  | zero => intro start; exact ⟨[], [], rfl, rfl, rfl, by intro st hst; simp at hst⟩
  | succ n ih =>
    intro start
    obtain ⟨lds, sts, hloop, hlds, hmap, hall⟩ := ih (start + 1)
    by_cases hc : g.hasStairs = true ∧ start < g.levels - 1
    · obtain ⟨st, r0, _, hst, hlevel, _⟩ := generateStairs_of_pos g start h
      refine ⟨generateLevel g start :: lds, st :: sts, ?_, ?_, ?_, ?_⟩
      · simp only [generateLoop, if_pos hc, hst, hloop, List.singleton_append]
      · rw [List.range'_succ, List.map_cons, hlds]
      · rw [List.range'_succ, List.map_cons, hlevel,
          List.filter_cons_of_pos (by simp [hc.1, hc.2]), hmap]
      · intro s hs
        rcases List.mem_cons.mp hs with hs | hs
        · subst hs; rw [hlevel]; exact hst
        · exact hall s hs
    · refine ⟨generateLevel g start :: lds, sts, ?_, ?_, ?_, hall⟩
      · simp only [generateLoop, if_neg hc, hloop, List.nil_append]
      · rw [List.range'_succ, List.map_cons, hlds]
      · rw [List.range'_succ,
          List.filter_cons_of_neg (by simpa using fun h1 h2 => hc ⟨h1, h2⟩), hmap]

/-- C10: stair generation is controlled by `config.hasStairs !== false`:
the instance flag is true exactly when the configured value is not the
boolean `false` (absent, `null`, `0`, any number or `true` all enable
it), and whenever the flag is on and the building has at least two
levels, `generate` emits at least one stair. -/
theorem building_hasStairs_truthy (c : BuildingConfig) :
    ((mkBuildingGrammar c).hasStairs = true ↔ c.hasStairs ≠ JSVal.bool false) ∧
    (c.hasStairs ≠ JSVal.bool false → 2 ≤ (mkBuildingGrammar c).levels →
      ∃ b, (mkBuildingGrammar c).generate = some b ∧ b.stairs ≠ []) := by
  constructor
  · simp [mkBuildingGrammar]
  · intro hs hl
    set g := mkBuildingGrammar c with hg
    obtain ⟨lds, sts, hloop, _, hmap, _⟩ :=
      generateLoop_spec g (mkBuildingGrammar_roomsPerLevel_pos c) g.levels 0
    refine ⟨⟨lds, sts⟩, by simp [BuildingGrammar.generate, hloop], ?_⟩
    have hstairs : g.hasStairs = true := by
      rw [hg]; simp [mkBuildingGrammar, hs]
    intro hnil
    have hnil2 : sts = [] := hnil
    rw [hnil2] at hmap
    have h0 : 0 ∈ (List.range' 0 g.levels).filter
        (fun l => g.hasStairs && decide (l < g.levels - 1)) := by
      rw [List.mem_filter]
      constructor
      · rw [List.mem_range']
        exact ⟨0, by omega, by omega⟩
      · simp [hstairs]
        omega
    rw [← hmap] at h0
    simp at h0

/-- A three-level configuration whose `hasStairs` key holds the falsy
number 0 — `!== false` still turns stairs on. -/
noncomputable def stairConfigNumZero : BuildingConfig :=
  { levels := 3, roomsPerLevel := 4, roomSize := 4.0, levelHeight := 3.0,
    wallThickness := 0.2, hasStairs := JSVal.num 0, roomLayout := "grid" }

/-- C10 witness: `hasStairs: 0` still generates stairs. -/
theorem building_hasStairs_truthy_witness :
    ∃ b, (mkBuildingGrammar stairConfigNumZero).generate = some b ∧ b.stairs ≠ [] :=
  (building_hasStairs_truthy stairConfigNumZero).2 (by decide)
    (by norm_num [mkBuildingGrammar, stairConfigNumZero])

/-- C4: with `levels = 3` and `hasStairs = true`, `generate` emits
exactly 2 stairs, one originating from each non-top level (levels 0 and
1), and each stair sits at its originating level's elevation and at the
`(x, z)` coordinates of that level's first room. -/
theorem building_stair_count (c : BuildingConfig) (hl : c.levels = 3)
    (hs : c.hasStairs = JSVal.bool true) :
    ∃ b, (mkBuildingGrammar c).generate = some b ∧
      b.stairs.length = 2 ∧
      b.stairs.map Stair.level = [0, 1] ∧
      ∀ st ∈ b.stairs, ∃ ld ∈ b.levels, ld.level = st.level ∧ st.y = ld.y ∧
        ∃ r0, ld.rooms.head? = some r0 ∧ st.x = r0.x ∧ st.z = r0.z := by
  have hpos := mkBuildingGrammar_roomsPerLevel_pos c
  set g := mkBuildingGrammar c with hg
  have hglev : g.levels = 3 := by rw [hg]; simp [mkBuildingGrammar, hl]
  have hgst : g.hasStairs = true := by rw [hg]; simp [mkBuildingGrammar, hs]
  obtain ⟨lds, sts, hloop, hlds, hmap, hall⟩ := generateLoop_spec g hpos g.levels 0
  rw [hglev] at hlds hmap
  have hrange : List.range' 0 3 = [0, 1, 2] := rfl
  rw [hrange] at hlds hmap
  have hmap2 : sts.map Stair.level = [0, 1] := by
    rw [hmap]
    simp [hgst]
  have hlen : sts.length = 2 := by
    have := congrArg List.length hmap2
    simpa using this
  refine ⟨⟨lds, sts⟩, by simp [BuildingGrammar.generate, hloop], hlen, hmap2, ?_⟩
  intro st hst
  have hlv : st.level = 0 ∨ st.level = 1 := by
    have hmem : st.level ∈ sts.map Stair.level := List.mem_map_of_mem Stair.level hst
    rw [hmap2] at hmem
    simpa using hmem
  obtain ⟨st2, r0, hhead, hsome, _, hy2, hx2, hz2, _, _, _⟩ :=
    generateStairs_of_pos g st.level hpos
  have hst2 : st2 = st := Option.some.inj (hsome.symm.trans (hall st hst))
  subst hst2
  refine ⟨generateLevel g st2.level, ?_, generateLevel_level g st2.level, hy2,
    r0, hhead, hx2, hz2⟩
  rw [hlds]
  rcases hlv with hlv | hlv <;> rw [hlv] <;> simp

/-- A three-level default-size configuration with `hasStairs: true`. -/
noncomputable def stairConfigTrue : BuildingConfig :=
  { levels := 3, roomsPerLevel := 4, roomSize := 4.0, levelHeight := 3.0,
    wallThickness := 0.2, hasStairs := JSVal.bool true, roomLayout := "grid" }

/-- C4 witness: the stair-count theorem at the concrete three-level
configuration. -/
theorem building_stair_count_witness :
    ∃ b, (mkBuildingGrammar stairConfigTrue).generate = some b ∧
      b.stairs.length = 2 ∧
      b.stairs.map Stair.level = [0, 1] ∧
      ∀ st ∈ b.stairs, ∃ ld ∈ b.levels, ld.level = st.level ∧ st.y = ld.y ∧
        ∃ r0, ld.rooms.head? = some r0 ∧ st.x = r0.x ∧ st.z = r0.z :=
  building_stair_count stairConfigTrue rfl rfl

/-- A configuration that sets `roomsPerLevel` to 0. -/
noncomputable def zeroRoomsConfig : BuildingConfig :=
  { levels := 3, roomsPerLevel := 0, roomSize := 4.0, levelHeight := 3.0,
    wallThickness := 0.2, hasStairs := JSVal.bool true, roomLayout := "grid" }

/-- C2 counterexample: with `roomsPerLevel: 0` the constructor's
`config.roomsPerLevel || 4` treats 0 as falsy and falls back to 4, so
`generate` succeeds and every level carries 4 rooms — no level has an
empty room list and no stair gets an undefined room reference. -/
theorem building_zero_rooms_counterexample :
    ∃ b, (mkBuildingGrammar zeroRoomsConfig).generate = some b ∧
      b.levels ≠ [] ∧ ∀ ld ∈ b.levels, ld.rooms.length = 4 ∧ ld.rooms ≠ [] := by
  have hpos := mkBuildingGrammar_roomsPerLevel_pos zeroRoomsConfig
  set g := mkBuildingGrammar zeroRoomsConfig with hg
  have hr : g.roomsPerLevel = 4 := by rw [hg]; simp [mkBuildingGrammar, zeroRoomsConfig]
  have hglev : g.levels = 3 := by rw [hg]; simp [mkBuildingGrammar, zeroRoomsConfig]
  obtain ⟨lds, sts, hloop, hlds, _, _⟩ := generateLoop_spec g hpos g.levels 0
  refine ⟨⟨lds, sts⟩, by simp [BuildingGrammar.generate, hloop], ?_, ?_⟩
  · have : lds.length = 3 := by
      rw [hlds, List.length_map, List.length_range', hglev]
    intro hnil
    have hnil2 : lds = [] := hnil
    rw [hnil2] at this
    simp at this
  · intro ld hld
    have hld2 : ld ∈ lds := hld
    rw [hlds] at hld2
    obtain ⟨l, _, hl⟩ := List.mem_map.mp hld2
    rw [← hl, generateLevel_rooms_length, hr]
    refine ⟨rfl, ?_⟩
    intro hnil
    have hlen := generateLevel_rooms_length g l
    rw [hnil, hr] at hlen
    simp at hlen

/-- C2 amended: a `roomsPerLevel` of 0 does not produce empty levels;
the `||` defaulting replaces it with 4, so every generated level has 4
rooms and stair generation always finds a first room. -/
theorem building_zero_rooms_defaults (c : BuildingConfig)
    (h0 : c.roomsPerLevel = 0) :
    (mkBuildingGrammar c).roomsPerLevel = 4 ∧
    ∃ b, (mkBuildingGrammar c).generate = some b ∧
      ∀ ld ∈ b.levels, ld.rooms.length = 4 := by
  have hpos := mkBuildingGrammar_roomsPerLevel_pos c
  set g := mkBuildingGrammar c with hg
  have hr : g.roomsPerLevel = 4 := by rw [hg]; simp [mkBuildingGrammar, h0]
  obtain ⟨lds, sts, hloop, hlds, _, _⟩ := generateLoop_spec g hpos g.levels 0
  refine ⟨hr, ⟨lds, sts⟩, by simp [BuildingGrammar.generate, hloop], ?_⟩
  intro ld hld
  have hld2 : ld ∈ lds := hld
  rw [hlds] at hld2
  obtain ⟨l, _, hl⟩ := List.mem_map.mp hld2
  rw [← hl, generateLevel_rooms_length, hr]

/-- C2 amended witness: the defaulting theorem at the concrete
zero-rooms configuration. -/
theorem building_zero_rooms_defaults_witness :
    (mkBuildingGrammar zeroRoomsConfig).roomsPerLevel = 4 ∧
    ∃ b, (mkBuildingGrammar zeroRoomsConfig).generate = some b ∧
      ∀ ld ∈ b.levels, ld.rooms.length = 4 :=
  building_zero_rooms_defaults zeroRoomsConfig rfl

lemma foldl_mem_mono {α β : Type} (f : List α → β → List α)
    (hmono : ∀ acc b, ∀ c ∈ acc, c ∈ f acc b) :
    ∀ (l : List β) (acc : List α), ∀ c ∈ acc, c ∈ l.foldl f acc := by
  intro l
  induction l with
  | nil => intro acc c hc; exact hc
  | cons b t ih => intro acc c hc; exact ih (f acc b) c (hmono acc b c hc)

lemma foldl_forall_mem {α β : Type} (f : List α → β → List α) (P : α → Prop) (Q : β → Prop)
    (hstep : ∀ acc b, Q b → (∀ c ∈ acc, P c) → ∀ c ∈ f acc b, P c) :
    ∀ (l : List β), (∀ b ∈ l, Q b) → ∀ (acc : List α), (∀ c ∈ acc, P c) →
      ∀ c ∈ l.foldl f acc, P c := by
  intro l
  induction l with
  | nil => intro _ acc hacc c hc; exact hacc c hc
  | cons b t ih =>
    intro hQ acc hacc c hc
    exact ih (fun x hx => hQ x (List.mem_cons_of_mem _ hx)) (f acc b)
      (hstep acc b (hQ b (List.mem_cons_self _ _)) hacc) c hc

lemma foldl_inv {α β : Type} (f : List α → β → List α) (Inv : List α → Prop)
    (hstep : ∀ acc b, Inv acc → Inv (f acc b)) :
    ∀ (l : List β) (acc : List α), Inv acc → Inv (l.foldl f acc) := by
  intro l
  induction l with
  | nil => intro acc h; exact h
  | cons b t ih => intro acc h; exact ih (f acc b) (hstep acc b h)

lemma foldl_exists_mid {α β : Type} (f : List α → β → List α)
    (hmono : ∀ acc b, ∀ c ∈ acc, c ∈ f acc b) (P : α → Prop) (x : β)
    (hx : ∀ acc, ∃ c ∈ f acc x, P c) (l1 l2 : List β) (acc : List α) :
    ∃ c ∈ (l1 ++ x :: l2).foldl f acc, P c := by
  rw [List.foldl_append]
  simp only [List.foldl_cons]
  obtain ⟨c, hc, hPc⟩ := hx (l1.foldl f acc)
  exact ⟨c, foldl_mem_mono f hmono l2 _ c hc, hPc⟩

lemma connStep_mono (g : BuildingGrammar) (li index : Nat) (pos : RoomPos) :
    ∀ acc other, ∀ c ∈ acc, c ∈ connStep g li index pos acc other := by
  intro acc other c hc
  simp only [connStep]
  split_ifs <;> simp [hc]

/-- Every connection the fold produces targets some other index in
range. -/
lemma roomConnections_mem (g : BuildingGrammar) (li : Nat) (positions : List RoomPos)
    (index : Nat) (pos : RoomPos) :
    ∀ c ∈ roomConnections g li positions index pos,
      ∃ j, j < positions.length ∧ j ≠ index ∧ c.toId = roomId li j := by
  intro c hc
  refine foldl_forall_mem (connStep g li index pos)
    (fun c => ∃ j, j < positions.length ∧ j ≠ index ∧ c.toId = roomId li j)
    (fun b => b.1 < positions.length) ?_ positions.enum ?_ [] (by simp) c hc
  · intro acc b hQ hacc c' hc'
    simp only [connStep] at hc'
    split_ifs at hc' with h1 h2 h3
    · exact hacc c' hc'
    · exact hacc c' hc'
    · rcases List.mem_append.mp hc' with h | h
      · exact hacc c' h
      · simp only [List.mem_singleton] at h
        exact ⟨b.1, hQ, h1, by rw [h]⟩
    · exact hacc c' hc'
  · intro b hb
    have hsome := List.mem_enum_iff_getElem?.mp hb
    exact (List.getElem?_eq_some.mp hsome).1

/-- The duplicate guard keeps one room's target list duplicate-free. -/
lemma roomConnections_nodup (g : BuildingGrammar) (li : Nat) (positions : List RoomPos)
    (index : Nat) (pos : RoomPos) :
    ((roomConnections g li positions index pos).map RoomConnection.toId).Nodup := by
  refine foldl_inv (connStep g li index pos)
    (fun acc => (acc.map RoomConnection.toId).Nodup) ?_ positions.enum [] (by simp)
  intro acc b hInv
  simp only [connStep]
  split_ifs with h1 h2 h3
  · exact hInv
  · exact hInv
  · rw [List.map_append]
    simp only [List.map_singleton]
    rw [List.nodup_append]
    refine ⟨hInv, List.nodup_singleton _, ?_⟩
    intro a ha hb
    simp only [List.mem_singleton] at hb
    rw [hb] at ha
    obtain ⟨c, hc, hceq⟩ := List.mem_map.mp ha
    exact h3 (List.any_eq_true.mpr ⟨c, hc, by simp [hceq]⟩)
  · exact hInv

/-- Every other index in range whose position passes the distance test
ends up targeted by some connection of the fold's result. -/
lemma roomConnections_complete (g : BuildingGrammar) (li : Nat) (positions : List RoomPos)
    (index : Nat) (pos : RoomPos) (j : Nat) (hj : j < positions.length) (hne : j ≠ index)
    (hdist : Real.sqrt ((pos.x - positions[j].x) ^ 2 + (pos.z - positions[j].z) ^ 2) <
      g.roomSize * 1.2) :
    ∃ c ∈ roomConnections g li positions index pos, c.toId = roomId li j := by
  have hjl : j < positions.enum.length := by simpa using hj
  have hsplit : positions.enum =
      positions.enum.take j ++ (j, positions[j]) :: positions.enum.drop (j + 1) := by
    have h1 := List.take_append_drop j positions.enum
    rw [List.drop_eq_getElem_cons hjl, List.getElem_enum] at h1
    exact h1.symm
  rw [roomConnections, hsplit]
  refine foldl_exists_mid (connStep g li index pos) (connStep_mono g li index pos)
    (fun c => c.toId = roomId li j) (j, positions[j]) ?_ _ _ []
  intro acc
  by_cases hany : acc.any (fun c => c.toId = roomId li j)
  · obtain ⟨c, hc, hceq⟩ := List.any_eq_true.mp hany
    refine ⟨c, ?_, by simpa using hceq⟩
    simp only [connStep, if_neg hne, if_pos hdist, if_pos hany]
    exact hc
  · refine ⟨⟨roomId li j, getDirection pos positions[j]⟩, ?_, rfl⟩
    simp only [connStep, if_neg hne, if_pos hdist, if_neg hany]
    exact List.mem_append_right _ (List.mem_singleton_self _)

/-- The room generated at index `i` of a level, field by field. -/
lemma generateLevel_rooms_getElem (g : BuildingGrammar) (li i : Nat)
    (hi : i < (generateLevel g li).rooms.length)
    (hi2 : i < (generateRoomPositions g li).length) :
    (generateLevel g li).rooms[i] =
      { id := roomId li i,
        x := (generateRoomPositions g li)[i].x,
        y := (li : ℝ) * g.levelHeight,
        z := (generateRoomPositions g li)[i].z,
        width := g.roomSize, depth := g.roomSize, height := g.levelHeight,
        level := li,
        connections := roomConnections g li (generateRoomPositions g li) i
          (generateRoomPositions g li)[i] } := by
  simp only [generateLevel, List.getElem_map, List.getElem_enum]

lemma generateLevel_rooms_mem (g : BuildingGrammar) (li : Nat) (room : Room)
    (hroom : room ∈ (generateLevel g li).rooms) :
    ∃ i, ∃ hi2 : i < (generateRoomPositions g li).length,
      room =
        { id := roomId li i,
          x := (generateRoomPositions g li)[i].x,
          y := (li : ℝ) * g.levelHeight,
          z := (generateRoomPositions g li)[i].z,
          width := g.roomSize, depth := g.roomSize, height := g.levelHeight,
          level := li,
          connections := roomConnections g li (generateRoomPositions g li) i
            (generateRoomPositions g li)[i] } := by
  simp only [generateLevel] at hroom
  obtain ⟨ip, hmem, heq⟩ := List.mem_map.mp hroom
  have hsome := List.mem_enum_iff_getElem?.mp hmem
  obtain ⟨hlt, hget⟩ := List.getElem?_eq_some.mp hsome
  refine ⟨ip.1, hlt, ?_⟩
  rw [← heq, ← hget]

/-- C5: in every generated level, no room lists a connection to its own
id, no room's connection list repeats a target id, every pair of
distinct rooms whose planar distance is below `roomSize * 1.2` is
connected from at least one side, and every connection targets the id
of a room of the same level. -/
theorem building_level_connection_invariants (g : BuildingGrammar) (li : Nat) :
    (∀ room ∈ (generateLevel g li).rooms, ∀ c ∈ room.connections, c.toId ≠ room.id) ∧
    (∀ room ∈ (generateLevel g li).rooms,
      (room.connections.map RoomConnection.toId).Nodup) ∧
    (∀ room ∈ (generateLevel g li).rooms, ∀ c ∈ room.connections,
      ∃ r2 ∈ (generateLevel g li).rooms, r2.id = c.toId) ∧
    (∀ i j, ∀ hi : i < (generateLevel g li).rooms.length,
      ∀ hj : j < (generateLevel g li).rooms.length, i ≠ j →
      Real.sqrt (((generateLevel g li).rooms[i].x - (generateLevel g li).rooms[j].x) ^ 2 +
          ((generateLevel g li).rooms[i].z - (generateLevel g li).rooms[j].z) ^ 2) <
        g.roomSize * 1.2 →
      (∃ c ∈ (generateLevel g li).rooms[i].connections,
        c.toId = (generateLevel g li).rooms[j].id) ∨
      (∃ c ∈ (generateLevel g li).rooms[j].connections,
        c.toId = (generateLevel g li).rooms[i].id)) := by
  have hlen : (generateLevel g li).rooms.length = (generateRoomPositions g li).length := by
    rw [generateLevel_rooms_length, generateRoomPositions_length]
  refine ⟨?_, ?_, ?_, ?_⟩
  · intro room hroom c hc
    obtain ⟨i, hi2, rfl⟩ := generateLevel_rooms_mem g li room hroom
    obtain ⟨j, hjl, hji, hto⟩ := roomConnections_mem g li _ i _ c hc
    intro heq
    rw [hto] at heq
    exact hji (roomId_inj_index heq)
  · intro room hroom
    obtain ⟨i, hi2, rfl⟩ := generateLevel_rooms_mem g li room hroom
    exact roomConnections_nodup g li _ i _
  · intro room hroom c hc
    obtain ⟨i, hi2, rfl⟩ := generateLevel_rooms_mem g li room hroom
    obtain ⟨j, hjl, hji, hto⟩ := roomConnections_mem g li _ i _ c hc
    have hj : j < (generateLevel g li).rooms.length := by rw [hlen]; exact hjl
    refine ⟨(generateLevel g li).rooms[j], List.getElem_mem hj, ?_⟩
    rw [generateLevel_rooms_getElem g li j hj hjl, hto]
  · intro i j hi hj hne hdist
    left
    have hi2 : i < (generateRoomPositions g li).length := by rw [← hlen]; exact hi
    have hj2 : j < (generateRoomPositions g li).length := by rw [← hlen]; exact hj
    rw [generateLevel_rooms_getElem g li i hi hi2,
      generateLevel_rooms_getElem g li j hj hj2] at hdist ⊢
    exact roomConnections_complete g li _ i _ j hj2 (Ne.symm hne) hdist

/-- C5 witness: the invariants instantiated at the default grid layout
with 4 rooms per level (level 0). -/
noncomputable def gridGrammar : BuildingGrammar :=
  mkBuildingGrammar stairConfigTrue

/-- C5 witness: the connection invariants at the concrete 4-room grid
level. -/
theorem building_level_connection_invariants_witness :
    (∀ room ∈ (generateLevel gridGrammar 0).rooms, ∀ c ∈ room.connections,
      c.toId ≠ room.id) ∧
    (∀ room ∈ (generateLevel gridGrammar 0).rooms,
      (room.connections.map RoomConnection.toId).Nodup) ∧
    (∀ room ∈ (generateLevel gridGrammar 0).rooms, ∀ c ∈ room.connections,
      ∃ r2 ∈ (generateLevel gridGrammar 0).rooms, r2.id = c.toId) ∧
    (∀ i j, ∀ hi : i < (generateLevel gridGrammar 0).rooms.length,
      ∀ hj : j < (generateLevel gridGrammar 0).rooms.length, i ≠ j →
      Real.sqrt
          (((generateLevel gridGrammar 0).rooms[i].x -
              (generateLevel gridGrammar 0).rooms[j].x) ^ 2 +
            ((generateLevel gridGrammar 0).rooms[i].z -
              (generateLevel gridGrammar 0).rooms[j].z) ^ 2) <
        gridGrammar.roomSize * 1.2 →
      (∃ c ∈ (generateLevel gridGrammar 0).rooms[i].connections,
        c.toId = (generateLevel gridGrammar 0).rooms[j].id) ∨
      (∃ c ∈ (generateLevel gridGrammar 0).rooms[j].connections,
        c.toId = (generateLevel gridGrammar 0).rooms[i].id)) :=
  building_level_connection_invariants gridGrammar 0

lemma ceilSqrt_four : ceilSqrt 4 = 2 := by
  have h3 : Nat.sqrt 3 = 1 :=
    Nat.le_antisymm (Nat.le_of_lt_succ (Nat.sqrt_lt.2 (by norm_num)))
      (Nat.le_sqrt.2 (by norm_num))
  simp [ceilSqrt, h3]

/-- The default grid layout (4 rooms, room size 4) evaluated: a 2×2
grid with spacing `4 × 1.1 = 4.4`, centered on the origin. -/
lemma gridPositions_eval :
    generateRoomPositions gridGrammar 0 =
      [⟨-2.2, -2.2⟩, ⟨2.2, -2.2⟩, ⟨-2.2, 2.2⟩, ⟨2.2, 2.2⟩] := by
  have hlayout : gridGrammar.roomLayout = "grid" := by
    simp [gridGrammar, mkBuildingGrammar, stairConfigTrue]
  have hrooms : gridGrammar.roomsPerLevel = 4 := by
    simp [gridGrammar, mkBuildingGrammar, stairConfigTrue]
  have hsize : gridGrammar.roomSize = 4.0 := by
    norm_num [gridGrammar, mkBuildingGrammar, stairConfigTrue]
  simp only [generateRoomPositions, hlayout, hrooms, hsize, if_pos, ceilSqrt_four]
  norm_num [List.range_succ]

/-- In the evaluated grid, rooms 0 and 1 sit 4.4 apart, under the
`4 × 1.2 = 4.8` adjacency bound, and the connection fold for room 0
does record a connection targeting room 1: the distance test of the
connectivity invariant is satisfiable, not vacuous. -/
theorem grid_first_pair_connected :
    ∃ c ∈ roomConnections gridGrammar 0 (generateRoomPositions gridGrammar 0) 0
        (RoomPos.mk (-2.2) (-2.2)),
      c.toId = roomId 0 1 := by
  have hlen : (generateRoomPositions gridGrammar 0).length = 4 := by
    rw [gridPositions_eval]; rfl
  have hj : 1 < (generateRoomPositions gridGrammar 0).length := by omega
  have hget : (generateRoomPositions gridGrammar 0)[1] = ⟨2.2, -2.2⟩ := by
    simp [gridPositions_eval]
  have hsize : gridGrammar.roomSize = 4.0 := by
    norm_num [gridGrammar, mkBuildingGrammar, stairConfigTrue]
  refine roomConnections_complete gridGrammar 0 _ 0 _ 1 hj (by norm_num) ?_
  rw [hget, hsize]
  have harg : ((-2.2 : ℝ) - (2.2 : ℝ)) ^ 2 + ((-2.2 : ℝ) - (-2.2 : ℝ)) ^ 2 = 4.4 ^ 2 := by
    norm_num
  rw [show ((RoomPos.mk (-2.2) (-2.2)).x - (RoomPos.mk 2.2 (-2.2)).x) ^ 2 +
      ((RoomPos.mk (-2.2) (-2.2)).z - (RoomPos.mk 2.2 (-2.2)).z) ^ 2 = 4.4 ^ 2 from harg,
    Real.sqrt_sq (by norm_num : (0:ℝ) ≤ 4.4)]
  norm_num
